import Mathlib

/-!
Verification development for the mcp-hub core: the connection orchestrator
(`MCPHub`) and the cross-process workspace registry (`WorkspaceCacheManager`).

The JavaScript source is shallowly embedded: the mutable `Map` of connections
and the JSON registry document become association lists with JS object/Map
semantics; every call into an external collaborator (a `MCPConnection`
method, the config manager, the filesystem, `process.kill`) is an oracle
passed as a function argument returning `Except`; `try`/`catch` becomes
pattern matching on those `Except` values.  Temporal facts (an entry is
stored before its connect is attempted, the lock file is removed after the
critical section) are captured by an event trace emitted alongside the
result.
-/

/-! ## Association lists with JS object / Map semantics -/

/-- Lookup of a key, first match wins (JS `map.get(k)` / `obj[k]`). -/
def mapGet {α : Type} (m : List (String × α)) (k : String) : Option α :=
  match m with
  | [] => none
  | (k0, v0) :: rest => if k0 = k then some v0 else mapGet rest k

/-- JS `map.set(k, v)` / `obj[k] = v`: replace the value in place when the
key is present, otherwise append the new pair at the end. -/
def mapSet {α : Type} (m : List (String × α)) (k : String) (v : α) : List (String × α) :=
  match m with
  | [] => [(k, v)]
  | (k0, v0) :: rest => if k0 = k then (k, v) :: rest else (k0, v0) :: mapSet rest k v

/-- JS `delete obj[k]`: drop the pair stored under `k`. -/
def mapDel {α : Type} (m : List (String × α)) (k : String) : List (String × α) :=
  match m with
  | [] => []
  | (k0, v0) :: rest => if k0 = k then mapDel rest k else (k0, v0) :: mapDel rest k

/-- The key sequence of a map (JS `map.keys()` / `Object.keys`). -/
def keysOf {α : Type} (m : List (String × α)) : List String :=
  m.map Prod.fst

/-! ## Error model

`JsError` models the thrown values of the source: the specific error classes
from `utils/errors.js`, raw I/O errors (carrying the Node `code` such as
`EEXIST` or `ENOENT`), bare `new Error(message)` values, and wrapped errors. -/

inductive JsError where
  | serverError (message : String) (data : List (String × String))
  | configError (message : String)
  | connectionError (message : String)
  | ioError (code : String)
  | genericError (message : String)
  | wrapped (code : String) (data : List (String × String)) (original : JsError)
deriving DecidableEq

/-- The `.code` property consulted by the source (`error.code`). -/
def JsError.code : JsError → Option String
  | .ioError c => some c
  | .wrapped c _ _ => some c
  | _ => none

/-- `error instanceof ConfigError` as checked by `MCPHub.initialize`. -/
def isConfigError : JsError → Bool
  | .configError _ => true
  | _ => false

/-- Modelled from the spec: `wrapError` lives in `utils/errors.js`, which is
not among the given sources.  Per the error-handling design of the spec it
produces a generic wrapped error carrying a machine-readable code and
contextual fields plus the original error as diagnostic detail, while a
`ConfigError` (malformed/missing configuration) is never wrapped further and
passes through unchanged. -/
def wrapError (e : JsError) (code : String) (data : List (String × String)) : JsError :=
  if isConfigError e then e else .wrapped code data e

/-! ## Connection orchestrator data model -/

/-- One configured server entry: a `disabled` flag plus launch parameters
that are opaque to the orchestrator. -/
structure ServerConfig where
  disabled : Bool
  params : String
deriving DecidableEq

/-- The runtime handle created by `new MCPConnection(name, serverConfig)`. -/
structure MCPConnection where
  name : String
  config : ServerConfig
deriving DecidableEq

/-- The orchestrator connection map `this.connections` (a JS `Map`). -/
abbrev ConnMap := List (String × MCPConnection)

/-- Observable steps of the orchestrator, used to state ordering facts. -/
inductive HubEvent where
  | setConn (name : String)
  | connectAttempt (name : String)
  | loggedError (code : String) (server : String)
  | disconnectAttempt (name : String)
  | clearedMap
deriving DecidableEq

/-- `a` occurs before every occurrence of `b` in the trace. -/
def eventBefore {α : Type} (tr : List α) (a b : α) : Prop :=
  ∀ j : Nat, tr[j]? = some b → ∃ i : Nat, i < j ∧ tr[i]? = some a

/-! ## Connection orchestrator operations -/

/-- The body of one iteration of the loop in `startConfiguredServers`:
create the `MCPConnection`, store it under its name, then attempt
`connection.connect()`; a connect failure is caught and logged with the
code of the error (default `SERVER_START_ERROR`) and the server name. -/
def startOne (connectRes : String → ServerConfig → Except JsError Unit)
    (st : ConnMap) (name : String) (cfg : ServerConfig) : ConnMap × List HubEvent :=
  match connectRes name cfg with
  | .ok _ =>
    (mapSet st name (MCPConnection.mk name cfg),
     [.setConn name, .connectAttempt name])
  | .error e =>
    (mapSet st name (MCPConnection.mk name cfg),
     [.setConn name, .connectAttempt name,
      .loggedError (e.code.getD "SERVER_START_ERROR") name])

/-- The loop of `MCPHub.startConfiguredServers` over `Object.entries` of the
configured server table. -/
def startRun (connectRes : String → ServerConfig → Except JsError Unit) :
    ConnMap → List (String × ServerConfig) → ConnMap × List HubEvent
  | st, [] => (st, [])
  | st, (name, cfg) :: rest =>
    ((startRun connectRes (startOne connectRes st name cfg).1 rest).1,
     (startOne connectRes st name cfg).2 ++
       (startRun connectRes (startOne connectRes st name cfg).1 rest).2)

/-- `MCPHub.startConfiguredServers`: every per-server failure is caught
inside the loop, so the operation as a whole always resolves. -/
def startConfiguredServers (connectRes : String → ServerConfig → Except JsError Unit)
    (st : ConnMap) (servers : List (String × ServerConfig)) :
    Except JsError (ConnMap × List HubEvent) :=
  .ok (startRun connectRes st servers)

/-- `MCPHub.getAllServerStatuses`: map `getServerInfo` over the held
connections; the snapshot type is opaque to the orchestrator. -/
def getAllServerStatuses {Info : Type} (info : MCPConnection → Info) (st : ConnMap) :
    List Info :=
  st.map (fun p => info p.2)

/-- `MCPHub.connectServer`: store the new connection under `name` (replacing
any previous handle), then attempt `connect()`; a failure propagates but the
map keeps the new connection; on success `getServerInfo()` is returned. -/
def connectServer {Info : Type} (connectRes : String → ServerConfig → Except JsError Unit)
    (info : MCPConnection → Info) (st : ConnMap) (name : String) (cfg : ServerConfig) :
    ConnMap × Except JsError Info :=
  match connectRes name cfg with
  | .ok _ =>
    (mapSet st name (MCPConnection.mk name cfg),
     .ok (info (MCPConnection.mk name cfg)))
  | .error e =>
    (mapSet st name (MCPConnection.mk name cfg), .error e)

/-- `MCPHub.disconnectServer`: no-op when the name is absent; otherwise
`disconnect()` is attempted and any error is logged, never raised; the
entry is NOT removed from the map. -/
def disconnectServer (disconnectRes : String → Except JsError Unit)
    (st : ConnMap) (name : String) : ConnMap × List HubEvent :=
  match mapGet st name with
  | none => (st, [])
  | some _ =>
    match disconnectRes name with
    | .ok _ => (st, [.disconnectAttempt name])
    | .error _ =>
      (st, [.disconnectAttempt name, .loggedError "SERVER_DISCONNECT_ERROR" name])

/-- `this.connections.clear()`. -/
def mapClear (_st : ConnMap) : ConnMap := []

/-- The settled fan-out of `MCPHub.disconnectAll`: every name is fed through
`disconnectServer` (each branch isolated, `Promise.allSettled`), then the
connection map is cleared unconditionally. -/
def disconnectAllRun (disconnectRes : String → Except JsError Unit) (st : ConnMap) :
    ConnMap × List HubEvent :=
  (mapClear st,
   (((keysOf st).map (fun n => disconnectServer disconnectRes st n)).map Prod.snd).flatten
     ++ [HubEvent.clearedMap])

/-- `MCPHub.disconnectAll` never rejects: `allSettled` absorbs branch
outcomes and the remaining statements cannot throw. -/
def disconnectAll (disconnectRes : String → Except JsError Unit) (st : ConnMap) :
    Except JsError (ConnMap × List HubEvent) :=
  .ok (disconnectAllRun disconnectRes st)

/-- `MCPHub.callTool`. -/
def callTool {Res : Type} (connCallTool : MCPConnection → String → String → Except JsError Res)
    (st : ConnMap) (serverName toolName args : String) : Except JsError Res :=
  match mapGet st serverName with
  | none =>
    .error (.serverError "Server not found"
      [("server", serverName), ("operation", "tool_call"), ("tool", toolName)])
  | some connection => connCallTool connection toolName args

/-- `MCPHub.readResource`. -/
def readResource {Res : Type} (connReadResource : MCPConnection → String → Except JsError Res)
    (st : ConnMap) (serverName uri : String) : Except JsError Res :=
  match mapGet st serverName with
  | none =>
    .error (.serverError "Server not found"
      [("server", serverName), ("operation", "resource_read"), ("uri", uri)])
  | some connection => connReadResource connection uri

/-! ## Targeted start/stop and the hub facade -/

/-- `MCPHub.startServer(name)`: both NotFound checks (config entry, then
connection) happen before any mutation; only then is a disabled entry
flipped to enabled and persisted via the config manager, and
`connection.start()` issued.  The returned pair records the resulting
config table together with whether `configManager.updateConfig` was
invoked, alongside the outcome. -/
def startServer {Status : Type}
    (persistRes : List (String × ServerConfig) → Except JsError Unit)
    (startRes : Except JsError Status)
    (config : List (String × ServerConfig)) (st : ConnMap) (name : String) :
    (List (String × ServerConfig) × Bool) × Except JsError Status :=
  match mapGet config name with
  | none => ((config, false), .error (.serverError "Server not found" [("server", name)]))
  | some serverConfig =>
    match mapGet st name with
    | none =>
      ((config, false),
       .error (.serverError "Server connection not found" [("server", name)]))
    | some _ =>
      if serverConfig.disabled then
        match persistRes (mapSet config name { serverConfig with disabled := false }) with
        | .ok _ => ((mapSet config name { serverConfig with disabled := false }, true), startRes)
        | .error e => ((mapSet config name { serverConfig with disabled := false }, true), .error e)
      else
        ((config, false), startRes)

/-- `MCPHub.stopServer(name, disable)`: the config entry is checked, then —
when `disable` is set — the entry is marked disabled and persisted BEFORE
the connection lookup; only afterwards is the connection checked and
`connection.stop(disable)` issued. -/
def stopServer {Status : Type}
    (persistRes : List (String × ServerConfig) → Except JsError Unit)
    (stopRes : Bool → Except JsError Status)
    (config : List (String × ServerConfig)) (st : ConnMap) (name : String)
    (disable : Bool) :
    (List (String × ServerConfig) × Bool) × Except JsError Status :=
  match mapGet config name with
  | none => ((config, false), .error (.serverError "Server not found" [("server", name)]))
  | some serverConfig =>
    if disable then
      match persistRes (mapSet config name { serverConfig with disabled := true }) with
      | .error e => ((mapSet config name { serverConfig with disabled := true }, true), .error e)
      | .ok _ =>
        match mapGet st name with
        | none =>
          ((mapSet config name { serverConfig with disabled := true }, true),
           .error (.serverError "Server connection not found" [("server", name)]))
        | some _ =>
          ((mapSet config name { serverConfig with disabled := true }, true), stopRes disable)
    else
      match mapGet st name with
      | none =>
        ((config, false),
         .error (.serverError "Server connection not found" [("server", name)]))
      | some _ => ((config, false), stopRes disable)

/-- The `try` block of `MCPHub.initialize`: load the configuration, then run
the initial `startConfiguredServers` (config watching only wires callbacks
and is not itself fallible here). -/
def initHubBody (loadRes : Except JsError (List (String × ServerConfig)))
    (connectRes : String → ServerConfig → Except JsError Unit) (st : ConnMap) :
    Except JsError (ConnMap × List HubEvent) := do
  let config ← loadRes
  startConfiguredServers connectRes st config

/-- `MCPHub.initialize`: a `ConfigError` escapes unwrapped; every other
failure is wrapped as `HUB_INIT_ERROR` tagged with `watchEnabled`. -/
def initHub (loadRes : Except JsError (List (String × ServerConfig)))
    (connectRes : String → ServerConfig → Except JsError Unit) (st : ConnMap)
    (shouldWatchConfig : Bool) : Except JsError (ConnMap × List HubEvent) :=
  match initHubBody loadRes connectRes st with
  | .ok r => .ok r
  | .error e =>
    if isConfigError e then .error e
    else .error (wrapError e "HUB_INIT_ERROR" [("watchEnabled", toString shouldWatchConfig)])

/-- `MCPHub.updateConfig`: delegate to `configManager.updateConfig`
(`updateRes` is the new server table it yields), reconcile via
`startConfiguredServers`, and wrap ANY failure as `CONFIG_UPDATE_ERROR`
tagged with `isPathUpdate` — unlike `initialize` there is no
`instanceof ConfigError` exemption here. -/
def updateConfig (updateRes : Except JsError (List (String × ServerConfig)))
    (connectRes : String → ServerConfig → Except JsError Unit) (st : ConnMap)
    (isPathUpdate : Bool) : Except JsError (ConnMap × List HubEvent) :=
  match (do
      let config ← updateRes
      startConfiguredServers connectRes st config : Except JsError (ConnMap × List HubEvent)) with
  | .ok r => .ok r
  | .error e =>
    .error (wrapError e "CONFIG_UPDATE_ERROR" [("isPathUpdate", toString isPathUpdate)])

/-! ## Workspace registry: lock-protected file store -/

/-- Outcome of the exclusive-create of the lock file
(`fs.writeFile(lockFilePath, pid, \x7b flag: wx \x7d)`). -/
inductive CreateOutcome where
  | success
  | failure (e : JsError)
deriving DecidableEq

/-- Observable steps of `_withLock`, used to state ordering facts. -/
inductive LockEvent where
  | acquired (attempt : Nat)
  | ranCritical (attempt : Nat)
  | unlinked (attempt : Nat)
  | unlinkFailedIgnored (attempt : Nat)
  | createFailedExists (attempt : Nat)
  | waited (ms : Nat)
  | createFailedOther (attempt : Nat)
deriving DecidableEq

def maxRetries : Nat := 10

def retryDelay : Nat := 50

/-- The retry loop of `WorkspaceCacheManager._withLock`.  `create attempt`
is the outcome of the exclusive lock-file creation on that attempt,
`unlinkRes attempt` the outcome of the `fs.unlink` in the `finally` block
(always ignored), and `fn` the critical section.  A caught error whose
`code` is `EEXIST` waits `retryDelay` and retries; any other caught error
propagates; exhausting the budget throws the timeout `Error`. -/
def withLockGo {α : Type} (create : Nat → CreateOutcome)
    (unlinkRes : Nat → Except JsError Unit) (fn : Except JsError α) :
    Nat → Nat → Except JsError α × List LockEvent
  | _, 0 => (.error (.genericError "Failed to acquire lock after 10 attempts"), [])
  | attempt, fuel + 1 =>
    match create attempt with
    | .success =>
      match fn with
      | .ok a =>
        (.ok a,
         [.acquired attempt, .ranCritical attempt,
          match unlinkRes attempt with
          | .ok _ => .unlinked attempt
          | .error _ => .unlinkFailedIgnored attempt])
      | .error e =>
        if e.code = some "EEXIST" then
          ((withLockGo create unlinkRes fn (attempt + 1) fuel).1,
           [.acquired attempt, .ranCritical attempt,
            match unlinkRes attempt with
            | .ok _ => .unlinked attempt
            | .error _ => .unlinkFailedIgnored attempt,
            .waited retryDelay] ++ (withLockGo create unlinkRes fn (attempt + 1) fuel).2)
        else
          (.error e,
           [.acquired attempt, .ranCritical attempt,
            match unlinkRes attempt with
            | .ok _ => .unlinked attempt
            | .error _ => .unlinkFailedIgnored attempt])
    | .failure e =>
      if e.code = some "EEXIST" then
        ((withLockGo create unlinkRes fn (attempt + 1) fuel).1,
         [.createFailedExists attempt, .waited retryDelay]
           ++ (withLockGo create unlinkRes fn (attempt + 1) fuel).2)
      else
        (.error e, [.createFailedOther attempt])

/-- `WorkspaceCacheManager._withLock`. -/
def withLock {α : Type} (create : Nat → CreateOutcome)
    (unlinkRes : Nat → Except JsError Unit) (fn : Except JsError α) :
    Except JsError α × List LockEvent :=
  withLockGo create unlinkRes fn 0 maxRetries

/-- The trace left by a run of consecutive already-exists creation failures:
each attempt logs the `EEXIST` failure and then waits `retryDelay`. -/
def eexistTrace : Nat → Nat → List LockEvent
  | _, 0 => []
  | attempt, fuel + 1 =>
    .createFailedExists attempt :: .waited retryDelay :: eexistTrace (attempt + 1) fuel

/-! ## Workspace registry operations -/

/-- One row of the registry document. -/
structure WorkspaceEntry where
  pid : Nat
  port : Nat
  startTime : String
deriving DecidableEq

/-- The on-disk JSON table keyed by workspace path. -/
abbrev WorkspaceDoc := List (String × WorkspaceEntry)

/-- `WorkspaceCacheManager._isProcessRunning`: `process.kill(pid, 0)`
succeeds exactly when the process exists; the catch absorbs the failure. -/
def isProcessRunning (killRes : Nat → Except JsError Unit) (pid : Nat) : Bool :=
  match killRes pid with
  | .ok _ => true
  | .error _ => false

/-- The critical section of `cleanupStaleEntries`: keep exactly the rows
whose pid is alive; rewrite the document only when at least one row was
dropped.  Returns the document written, when a write happened. -/
def cleanupBody (killRes : Nat → Except JsError Unit)
    (readRes : Except JsError WorkspaceDoc)
    (writeRes : WorkspaceDoc → Except JsError Unit) :
    Except JsError (Option WorkspaceDoc) := do
  let cache ← readRes
  let cleanedCache := cache.filter (fun row => isProcessRunning killRes row.2.pid)
  let removedCount := cache.length - cleanedCache.length
  if removedCount > 0 then do
    let _ ← writeRes cleanedCache
    pure (some cleanedCache)
  else
    pure none

/-- `WorkspaceCacheManager.cleanupStaleEntries`: the body runs under
`_withLock`; the outer catch logs and swallows every failure. -/
def cleanupStaleEntries (create : Nat → CreateOutcome)
    (unlinkRes : Nat → Except JsError Unit) (killRes : Nat → Except JsError Unit)
    (readRes : Except JsError WorkspaceDoc)
    (writeRes : WorkspaceDoc → Except JsError Unit) :
    Except JsError (Option WorkspaceDoc) :=
  match (withLock create unlinkRes (cleanupBody killRes readRes writeRes)).1 with
  | .ok v => .ok v
  | .error _ => .ok none

/-- The critical section of `register`: read, upsert the caller's row,
write back; returns the document written. -/
def registerBody (readRes : Except JsError WorkspaceDoc)
    (writeRes : WorkspaceDoc → Except JsError Unit)
    (workspaceKey : String) (entry : WorkspaceEntry) : Except JsError WorkspaceDoc := do
  let cache ← readRes
  let _ ← writeRes (mapSet cache workspaceKey entry)
  pure (mapSet cache workspaceKey entry)

/-- `WorkspaceCacheManager.register(port)`: the entry records the caller's
pid, the port and the start timestamp; failures are logged and rethrown. -/
def register (create : Nat → CreateOutcome) (unlinkRes : Nat → Except JsError Unit)
    (readRes : Except JsError WorkspaceDoc)
    (writeRes : WorkspaceDoc → Except JsError Unit)
    (workspaceKey : String) (pid port : Nat) (startTime : String) :
    Except JsError WorkspaceDoc :=
  (withLock create unlinkRes
    (registerBody readRes writeRes workspaceKey (WorkspaceEntry.mk pid port startTime))).1

/-- The critical section of `deregister`: delete the caller's row and write
back only when it was present. -/
def deregisterBody (readRes : Except JsError WorkspaceDoc)
    (writeRes : WorkspaceDoc → Except JsError Unit)
    (workspaceKey : String) : Except JsError WorkspaceDoc := do
  let cache ← readRes
  if (mapGet cache workspaceKey).isSome then do
    let _ ← writeRes (mapDel cache workspaceKey)
    pure (mapDel cache workspaceKey)
  else
    pure cache

/-- `WorkspaceCacheManager.deregister`: errors are logged, never raised
(shutdown must not block). -/
def deregister (create : Nat → CreateOutcome) (unlinkRes : Nat → Except JsError Unit)
    (readRes : Except JsError WorkspaceDoc)
    (writeRes : WorkspaceDoc → Except JsError Unit)
    (workspaceKey : String) : Except JsError (Option WorkspaceDoc) :=
  match (withLock create unlinkRes (deregisterBody readRes writeRes workspaceKey)).1 with
  | .ok d => .ok (some d)
  | .error _ => .ok none

/-- `WorkspaceCacheManager.getActiveWorkspaces`: best-effort read, empty
table on any failure. -/
def getActiveWorkspaces (readRes : Except JsError WorkspaceDoc) : WorkspaceDoc :=
  match readRes with
  | .ok d => d
  | .error _ => []

/-- The key sequence produced by a left fold of JS-map insertions. -/
def insKeys (l : List String) (names : List String) : List String :=
  names.foldl (fun acc n => if n ∈ acc then acc else acc ++ [n]) l

/-! ## Lemmas about the JS-style maps -/

theorem mapGet_mapSet_self {α : Type} (m : List (String × α)) (k : String) (v : α) :
    mapGet (mapSet m k v) k = some v := by
  induction m with
  | nil => simp [mapSet, mapGet]
  | cons p rest ih =>
    obtain ⟨k0, v0⟩ := p
    by_cases h : k0 = k
    · simp [mapSet, mapGet, h]
    · simp [mapSet, mapGet, h, ih]

theorem mapGet_mapSet_ne {α : Type} (m : List (String × α)) (k k' : String) (v : α)
    (h : k' ≠ k) : mapGet (mapSet m k v) k' = mapGet m k' := by
  have hkk : ¬ k = k' := fun hh => h hh.symm
  induction m with
  | nil => simp [mapSet, mapGet, hkk]
  | cons p rest ih =>
    obtain ⟨k0, v0⟩ := p
    simp only [mapSet]
    by_cases h0 : k0 = k
    · rw [if_pos h0]
      have h0' : ¬ k0 = k' := h0 ▸ hkk
      simp only [mapGet]
      rw [if_neg hkk, if_neg h0']
    · rw [if_neg h0]
      simp only [mapGet]
      by_cases h1 : k0 = k'
      · rw [if_pos h1, if_pos h1]
      · rw [if_neg h1, if_neg h1, ih]

theorem mapGet_mapDel_self {α : Type} (m : List (String × α)) (k : String) :
    mapGet (mapDel m k) k = none := by
  induction m with
  | nil => simp [mapDel, mapGet]
  | cons p rest ih =>
    obtain ⟨k0, v0⟩ := p
    simp only [mapDel]
    by_cases h : k0 = k
    · rw [if_pos h]
      exact ih
    · rw [if_neg h]
      simp only [mapGet]
      rw [if_neg h]
      exact ih

theorem mapGet_mapDel_ne {α : Type} (m : List (String × α)) (k k' : String)
    (h : k' ≠ k) : mapGet (mapDel m k) k' = mapGet m k' := by
  induction m with
  | nil => simp [mapDel]
  | cons p rest ih =>
    obtain ⟨k0, v0⟩ := p
    simp only [mapDel]
    by_cases h0 : k0 = k
    · rw [if_pos h0]
      have h0' : ¬ k0 = k' := fun hh => h (hh ▸ h0.symm ▸ rfl)
      simp only [mapGet]
      rw [if_neg h0', ih]
    · rw [if_neg h0]
      simp only [mapGet]
      by_cases h1 : k0 = k'
      · rw [if_pos h1, if_pos h1]
      · rw [if_neg h1, if_neg h1, ih]

theorem keysOf_mapSet_mem {α : Type} (m : List (String × α)) (k : String) (v : α)
    (hmem : k ∈ keysOf m) : keysOf (mapSet m k v) = keysOf m := by
  induction m with
  | nil => simp [keysOf] at hmem
  | cons p rest ih =>
    obtain ⟨k0, v0⟩ := p
    simp only [mapSet]
    by_cases h : k0 = k
    · rw [if_pos h]
      simp [keysOf, h]
    · rw [if_neg h]
      have hrest : k ∈ keysOf rest := by
        simp only [keysOf, List.map_cons, List.mem_cons] at hmem
        rcases hmem with hmem | hmem
        · exact absurd hmem.symm h
        · exact hmem
      simp only [keysOf, List.map_cons]
      rw [show List.map Prod.fst (mapSet rest k v) = keysOf (mapSet rest k v) from rfl,
        ih hrest]
      rfl

theorem keysOf_mapSet_not_mem {α : Type} (m : List (String × α)) (k : String) (v : α)
    (hmem : k ∉ keysOf m) : keysOf (mapSet m k v) = keysOf m ++ [k] := by
  induction m with
  | nil => simp [mapSet, keysOf]
  | cons p rest ih =>
    obtain ⟨k0, v0⟩ := p
    have hk0 : ¬ k0 = k := by
      intro hh
      exact hmem (by simp [keysOf, hh])
    have hrest : k ∉ keysOf rest := by
      intro hc
      exact hmem (by simp [keysOf]; exact Or.inr (by simpa [keysOf] using hc))
    simp only [mapSet]
    rw [if_neg hk0]
    simp only [keysOf, List.map_cons]
    rw [show List.map Prod.fst (mapSet rest k v) = keysOf (mapSet rest k v) from rfl,
      ih hrest]
    rfl

theorem mem_keysOf_iff_mapGet {α : Type} (m : List (String × α)) (k : String) :
    k ∈ keysOf m ↔ ∃ v, mapGet m k = some v := by
  induction m with
  | nil => simp [keysOf, mapGet]
  | cons p rest ih =>
    obtain ⟨k0, v0⟩ := p
    simp only [keysOf, List.map_cons, List.mem_cons, mapGet]
    by_cases h : k0 = k
    · rw [if_pos h]
      simp [h.symm]
    · have hne : ¬ k = k0 := fun hh => h hh.symm
      rw [if_neg h]
      simp only [keysOf] at ih
      constructor
      · intro hc
        rcases hc with hc | hc
        · exact absurd hc hne
        · exact ih.mp hc
      · intro hc
        exact Or.inr (ih.mpr hc)

/-! ## Helper lemmas on the orchestrator -/

theorem startOne_fst (f : String → ServerConfig → Except JsError Unit)
    (st : ConnMap) (n : String) (c : ServerConfig) :
    (startOne f st n c).1 = mapSet st n (MCPConnection.mk n c) := by
  cases h : f n c <;> simp [startOne, h]


theorem insKeys_cons (l : List String) (n : String) (ns : List String) :
    insKeys l (n :: ns) = insKeys (if n ∈ l then l else l ++ [n]) ns := rfl

theorem insKeys_of_disjoint (names : List String) :
    ∀ l : List String, names.Nodup → (∀ n ∈ names, n ∉ l) →
      insKeys l names = l ++ names := by
  induction names with
  | nil => intro l _ _; simp [insKeys]
  | cons n ns ih =>
    intro l hnd hdisj
    rw [insKeys_cons, if_neg (hdisj n (List.mem_cons_self n ns))]
    have hnd' : ns.Nodup := (List.nodup_cons.mp hnd).2
    have hdisj' : ∀ m ∈ ns, m ∉ l ++ [n] := by
      intro m hm hc
      rcases List.mem_append.mp hc with hc | hc
      · exact hdisj m (List.mem_cons_of_mem n hm) hc
      · have hmn : m = n := by simpa using hc
        exact (List.nodup_cons.mp hnd).1 (hmn ▸ hm)
    rw [ih (l ++ [n]) hnd' hdisj']
    simp

theorem insKeys_mem_mono (names : List String) :
    ∀ (l : List String) (k : String), k ∈ l → k ∈ insKeys l names := by
  induction names with
  | nil => intro l k hk; simpa [insKeys] using hk
  | cons n ns ih =>
    intro l k hk
    rw [insKeys_cons]
    by_cases h : n ∈ l
    · rw [if_pos h]
      exact ih l k hk
    · rw [if_neg h]
      exact ih _ k (List.mem_append_left _ hk)

theorem startRun_keysOf (f : String → ServerConfig → Except JsError Unit)
    (servers : List (String × ServerConfig)) :
    ∀ st : ConnMap,
      keysOf (startRun f st servers).1 = insKeys (keysOf st) (servers.map Prod.fst) := by
  induction servers with
  | nil => intro st; simp [startRun, insKeys]
  | cons p rest ih =>
    intro st
    obtain ⟨n, c⟩ := p
    simp only [startRun, List.map_cons]
    rw [insKeys_cons, ih]
    congr 1
    rw [startOne_fst]
    by_cases hmem : n ∈ keysOf st
    · rw [keysOf_mapSet_mem _ _ _ hmem, if_pos hmem]
    · rw [keysOf_mapSet_not_mem _ _ _ hmem, if_neg hmem]

theorem startRun_keys_mono (f : String → ServerConfig → Except JsError Unit)
    (servers : List (String × ServerConfig)) (st : ConnMap) (k : String)
    (hk : k ∈ keysOf st) : k ∈ keysOf (startRun f st servers).1 := by
  rw [startRun_keysOf]
  exact insKeys_mem_mono _ _ _ hk

theorem startRun_events_mem (f : String → ServerConfig → Except JsError Unit)
    (name : String) (cfg : ServerConfig) :
    ∀ (servers : List (String × ServerConfig)) (st : ConnMap),
      (name, cfg) ∈ servers →
      HubEvent.setConn name ∈ (startRun f st servers).2 ∧
      HubEvent.connectAttempt name ∈ (startRun f st servers).2 ∧
      name ∈ keysOf (startRun f st servers).1 := by
  intro servers
  induction servers with
  | nil =>
    intro st h
    cases h
  | cons p rest ih =>
    intro st h
    obtain ⟨n, c⟩ := p
    rcases List.mem_cons.mp h with h | h
    · have hn : n = name := by
        have := congrArg Prod.fst h
        exact this.symm
      subst hn
      have hset : HubEvent.setConn n ∈ (startOne f st n c).2 := by
        cases hfc : f n c <;> simp [startOne, hfc]
      have hatt : HubEvent.connectAttempt n ∈ (startOne f st n c).2 := by
        cases hfc : f n c <;> simp [startOne, hfc]
      have hkey : n ∈ keysOf (startOne f st n c).1 := by
        rw [startOne_fst]
        exact (mem_keysOf_iff_mapGet _ _).mpr ⟨_, mapGet_mapSet_self st n _⟩
      refine ⟨?_, ?_, ?_⟩
      · simp only [startRun]
        exact List.mem_append_left _ hset
      · simp only [startRun]
        exact List.mem_append_left _ hatt
      · simp only [startRun]
        exact startRun_keys_mono f rest _ n hkey
    · have := ih (startOne f st n c).1 h
      refine ⟨?_, ?_, ?_⟩
      · simp only [startRun]
        exact List.mem_append_right _ this.1
      · simp only [startRun]
        exact List.mem_append_right _ this.2.1
      · simp only [startRun]
        exact this.2.2

theorem startRun_setConn_before (f : String → ServerConfig → Except JsError Unit) :
    ∀ (servers : List (String × ServerConfig)) (st : ConnMap) (name : String) (j : Nat),
      ((startRun f st servers).2)[j]? = some (HubEvent.connectAttempt name) →
      ∃ i : Nat, i < j ∧ ((startRun f st servers).2)[i]? = some (HubEvent.setConn name) := by
  intro servers
  induction servers with
  | nil =>
    intro st name j hj
    simp [startRun] at hj
  | cons p rest ih =>
    intro st name j hj
    obtain ⟨n, c⟩ := p
    cases hfc : f n c with
    | ok u =>
      simp only [startRun, startOne, hfc, List.cons_append, List.nil_append] at hj ⊢
      cases j with
      | zero => simp at hj
      | succ j =>
        cases j with
        | zero =>
          have hn : n = name := by simpa using hj
          exact ⟨0, by omega, by simp [hn]⟩
        | succ j =>
          simp only [List.getElem?_cons_succ] at hj
          obtain ⟨i, hij, hi⟩ := ih (startOne f st n c).1 name j (by
            simpa [startOne, hfc] using hj)
          refine ⟨i + 2, by omega, ?_⟩
          simpa [startOne, hfc] using hi
    | error e =>
      simp only [startRun, startOne, hfc, List.cons_append, List.nil_append] at hj ⊢
      cases j with
      | zero => simp at hj
      | succ j =>
        cases j with
        | zero =>
          have hn : n = name := by simpa using hj
          exact ⟨0, by omega, by simp [hn]⟩
        | succ j =>
          cases j with
          | zero => simp at hj
          | succ j =>
            simp only [List.getElem?_cons_succ] at hj
            obtain ⟨i, hij, hi⟩ := ih (startOne f st n c).1 name j (by
              simpa [startOne, hfc] using hj)
            refine ⟨i + 3, by omega, ?_⟩
            simpa [startOne, hfc] using hi

theorem eventBefore_append_singleton {α : Type} (l : List α) (a b : α)
    (ha : a ∈ l) (hb : b ∉ l) : eventBefore (l ++ [b]) a b := by
  intro j hj
  have hjlen : ¬ j < l.length := by
    intro hlt
    rw [List.getElem?_append_left hlt] at hj
    exact hb (List.mem_iff_getElem?.mpr ⟨j, hj⟩)
  obtain ⟨i, hi⟩ := List.mem_iff_getElem?.mp ha
  have hilt : i < l.length := by
    by_contra hcon
    rw [List.getElem?_eq_none (by omega)] at hi
    cases hi
  refine ⟨i, by omega, ?_⟩
  rw [List.getElem?_append_left hilt]
  exact hi

/-! ## Claims about the connection orchestrator -/

/-- C1: for every configuration with N server entries of which any subset
fails to connect (`connectRes` ranges over every failure pattern),
`startConfiguredServers` on a fresh hub completes without raising an error
to its caller, every configured name is entered into the connection map
(its `setConn` step) before its connect is attempted, and a subsequent
`getAllServerStatuses` returns exactly N entries. -/
theorem startConfiguredServers_best_effort {Info : Type}
    (connectRes : String → ServerConfig → Except JsError Unit)
    (info : MCPConnection → Info) (servers : List (String × ServerConfig))
    (hnodup : (servers.map Prod.fst).Nodup) :
    startConfiguredServers connectRes [] servers = .ok (startRun connectRes [] servers) ∧
    (getAllServerStatuses info (startRun connectRes [] servers).1).length = servers.length ∧
    ∀ name ∈ servers.map Prod.fst,
      HubEvent.connectAttempt name ∈ (startRun connectRes [] servers).2 ∧
      eventBefore (startRun connectRes [] servers).2
        (.setConn name) (.connectAttempt name) := by
  refine ⟨rfl, ?_, ?_⟩
  · have hkeys : keysOf (startRun connectRes [] servers).1 = servers.map Prod.fst := by
      rw [startRun_keysOf]
      have h0 : keysOf ([] : ConnMap) = [] := rfl
      rw [h0, insKeys_of_disjoint _ [] hnodup (by simp)]
      simp
    have hlen : (startRun connectRes [] servers).1.length = servers.length := by
      have := congrArg List.length hkeys
      simpa [keysOf] using this
    simp [getAllServerStatuses, hlen]
  · intro name hname
    obtain ⟨⟨n, c⟩, hmem, hn⟩ := List.mem_map.mp hname
    have hn' : n = name := hn
    subst hn'
    refine ⟨(startRun_events_mem connectRes n c servers [] hmem).2.1, ?_⟩
    intro j hj
    exact startRun_setConn_before connectRes servers [] n j hj

theorem startConfiguredServers_best_effort_witness :
    (([("a", ServerConfig.mk false "pa"), ("b", ServerConfig.mk true "pb"),
        ("c", ServerConfig.mk false "pc")].map Prod.fst).Nodup) ∧
    (getAllServerStatuses (fun connection => connection.name)
      (startRun (fun n _ => if n = "b" then .error (.connectionError "refused") else .ok ())
        [] [("a", ServerConfig.mk false "pa"), ("b", ServerConfig.mk true "pb"),
            ("c", ServerConfig.mk false "pc")]).1).length = 3 :=
  ⟨by decide,
   (startConfiguredServers_best_effort
     (fun n _ => if n = "b" then .error (.connectionError "refused") else .ok ())
     (fun connection => connection.name)
     [("a", ServerConfig.mk false "pa"), ("b", ServerConfig.mk true "pb"),
      ("c", ServerConfig.mk false "pc")] (by decide)).2.1⟩

/-- C2: a configured entry whose `disabled` flag is true is treated by
`startConfiguredServers` exactly like an enabled one: an `MCPConnection` is
created and stored under its name and `connect()` is invoked on it. -/
theorem disabled_entries_still_connected
    (connectRes : String → ServerConfig → Except JsError Unit) (st : ConnMap)
    (servers : List (String × ServerConfig)) (name : String) (cfg : ServerConfig)
    (hmem : (name, cfg) ∈ servers) (hdis : cfg.disabled = true) :
    HubEvent.setConn name ∈ (startRun connectRes st servers).2 ∧
    HubEvent.connectAttempt name ∈ (startRun connectRes st servers).2 ∧
    name ∈ keysOf (startRun connectRes st servers).1 := by
  have _hd := hdis
  exact startRun_events_mem connectRes name cfg servers st hmem

theorem disabled_entries_still_connected_witness :
    (("x", ServerConfig.mk true "px") ∈ [("x", ServerConfig.mk true "px")] ∧
      (ServerConfig.mk true "px").disabled = true) ∧
    (HubEvent.setConn "x" ∈
        (startRun (fun _ _ => .error (.connectionError "disabled")) []
          [("x", ServerConfig.mk true "px")]).2 ∧
      HubEvent.connectAttempt "x" ∈
        (startRun (fun _ _ => .error (.connectionError "disabled")) []
          [("x", ServerConfig.mk true "px")]).2 ∧
      "x" ∈ keysOf (startRun (fun _ _ => .error (.connectionError "disabled")) []
          [("x", ServerConfig.mk true "px")]).1) :=
  ⟨⟨by decide, rfl⟩,
   disabled_entries_still_connected (fun _ _ => .error (.connectionError "disabled")) []
     [("x", ServerConfig.mk true "px")] "x" (ServerConfig.mk true "px") (by decide) rfl⟩

/-- C3 counterexample: with an existing handle stored under `a`, a failing
`connectServer` replacement propagates the connect error but leaves the NEW
(failed) connection in the map — the previous handle was discarded before
the new one was live, contradicting the claim as stated. -/
theorem connectServer_discards_previous_on_failure :
    (connectServer (fun _ _ => .error (.connectionError "connect failed"))
        (fun connection => connection.name)
        [("a", MCPConnection.mk "a" (ServerConfig.mk false "old"))]
        "a" (ServerConfig.mk false "new")).2
      = .error (.connectionError "connect failed") ∧
    mapGet (connectServer (fun _ _ => .error (.connectionError "connect failed"))
        (fun connection => connection.name)
        [("a", MCPConnection.mk "a" (ServerConfig.mk false "old"))]
        "a" (ServerConfig.mk false "new")).1 "a"
      = some (MCPConnection.mk "a" (ServerConfig.mk false "new")) ∧
    MCPConnection.mk "a" (ServerConfig.mk false "new")
      ≠ MCPConnection.mk "a" (ServerConfig.mk false "old") :=
  ⟨rfl, rfl, by decide⟩

/-- C3 amended: `connectServer` replaces the entry for `name` with the new
connection BEFORE attempting `connect()`; a connect failure propagates to
the caller but leaves the new (failed) connection, not the previous handle,
as the entry for `name`; on success the new server info is returned. -/
theorem connectServer_replaces_then_connects {Info : Type}
    (connectRes : String → ServerConfig → Except JsError Unit)
    (info : MCPConnection → Info) (st : ConnMap) (name : String) (cfg : ServerConfig) :
    (∀ e, connectRes name cfg = .error e →
      connectServer connectRes info st name cfg
        = (mapSet st name (MCPConnection.mk name cfg), .error e)) ∧
    (connectRes name cfg = .ok () →
      connectServer connectRes info st name cfg
        = (mapSet st name (MCPConnection.mk name cfg),
           .ok (info (MCPConnection.mk name cfg)))) := by
  constructor
  · intro e he
    simp [connectServer, he]
  · intro h
    simp [connectServer, h]

theorem connectServer_replaces_then_connects_witness :
    ((fun (_ : String) (_ : ServerConfig) =>
        (.error (.connectionError "boom") : Except JsError Unit)) "b"
          (ServerConfig.mk false "q") = .error (.connectionError "boom")) ∧
    connectServer
        (fun _ _ => (.error (.connectionError "boom") : Except JsError Unit))
        (fun connection => connection.name) [] "b" (ServerConfig.mk false "q")
      = (mapSet [] "b" (MCPConnection.mk "b" (ServerConfig.mk false "q")),
         .error (.connectionError "boom")) :=
  ⟨rfl,
   (connectServer_replaces_then_connects
     (fun _ _ => (.error (.connectionError "boom") : Except JsError Unit))
     (fun connection => connection.name) [] "b" (ServerConfig.mk false "q")).1
     (.connectionError "boom") rfl⟩

/-- C4: `disconnectAll` fans `disconnectServer` out over every known name,
waits for all branches to settle (each disconnect attempt appears in the
trace before the `clearedMap` step), then leaves the connection map empty —
even when every individual disconnect call fails — and never raises. -/
theorem disconnectAll_clears_map (disconnectRes : String → Except JsError Unit)
    (st : ConnMap) :
    disconnectAll disconnectRes st = .ok (disconnectAllRun disconnectRes st) ∧
    (disconnectAllRun disconnectRes st).1 = [] ∧
    HubEvent.clearedMap ∈ (disconnectAllRun disconnectRes st).2 ∧
    ∀ name ∈ keysOf st,
      HubEvent.disconnectAttempt name ∈ (disconnectAllRun disconnectRes st).2 ∧
      eventBefore (disconnectAllRun disconnectRes st).2
        (.disconnectAttempt name) .clearedMap := by
  refine ⟨rfl, rfl, ?_, ?_⟩
  · exact List.mem_append_right _ (by simp)
  · intro name hname
    obtain ⟨v, hv⟩ := (mem_keysOf_iff_mapGet st name).mp hname
    have hblock : HubEvent.disconnectAttempt name ∈ (disconnectServer disconnectRes st name).2 := by
      cases hd : disconnectRes name <;> simp [disconnectServer, hv, hd]
    have hmemflat : HubEvent.disconnectAttempt name ∈
        ((((keysOf st).map (fun n => disconnectServer disconnectRes st n)).map Prod.snd).flatten) := by
      refine List.mem_flatten.mpr ⟨(disconnectServer disconnectRes st name).2, ?_, hblock⟩
      exact List.mem_map.mpr ⟨disconnectServer disconnectRes st name,
        List.mem_map.mpr ⟨name, hname, rfl⟩, rfl⟩
    have hnoclear : HubEvent.clearedMap ∉
        ((((keysOf st).map (fun n => disconnectServer disconnectRes st n)).map Prod.snd).flatten) := by
      intro hc
      obtain ⟨s, hs, hcs⟩ := List.mem_flatten.mp hc
      obtain ⟨pr, hpr, hps⟩ := List.mem_map.mp hs
      obtain ⟨n, _, hn⟩ := List.mem_map.mp hpr
      subst hn
      subst hps
      cases hg : mapGet st n with
      | none => simp [disconnectServer, hg] at hcs
      | some c =>
        cases hd : disconnectRes n <;> simp [disconnectServer, hg, hd] at hcs
    constructor
    · exact List.mem_append_left _ hmemflat
    · exact eventBefore_append_singleton _ _ _ hmemflat hnoclear

theorem disconnectAll_clears_map_witness :
    ("a" ∈ keysOf [("a", MCPConnection.mk "a" (ServerConfig.mk false "pa")),
        ("b", MCPConnection.mk "b" (ServerConfig.mk false "pb"))]) ∧
    (disconnectAllRun (fun n => .error (.connectionError n))
      [("a", MCPConnection.mk "a" (ServerConfig.mk false "pa")),
       ("b", MCPConnection.mk "b" (ServerConfig.mk false "pb"))]).1 = [] ∧
    HubEvent.disconnectAttempt "a" ∈
      (disconnectAllRun (fun n => .error (.connectionError n))
        [("a", MCPConnection.mk "a" (ServerConfig.mk false "pa")),
         ("b", MCPConnection.mk "b" (ServerConfig.mk false "pb"))]).2 :=
  ⟨by decide,
   (disconnectAll_clears_map (fun n => .error (.connectionError n))
     [("a", MCPConnection.mk "a" (ServerConfig.mk false "pa")),
      ("b", MCPConnection.mk "b" (ServerConfig.mk false "pb"))]).2.1,
   ((disconnectAll_clears_map (fun n => .error (.connectionError n))
     [("a", MCPConnection.mk "a" (ServerConfig.mk false "pa")),
      ("b", MCPConnection.mk "b" (ServerConfig.mk false "pb"))]).2.2.2 "a" (by decide)).1⟩

/-- C5: for an absent server name, `callTool` fails with a `ServerError`
carrying the server name, operation `tool_call` and the tool name, and
`readResource` fails with a `ServerError` carrying the server name,
operation `resource_read` and the uri; for a present name each delegates
and returns or propagates exactly what the underlying connection yields. -/
theorem callTool_readResource_routing {Res : Type}
    (connCallTool : MCPConnection → String → String → Except JsError Res)
    (connReadResource : MCPConnection → String → Except JsError Res)
    (st : ConnMap) (serverName toolName args uri : String) :
    (mapGet st serverName = none →
      callTool connCallTool st serverName toolName args
        = .error (.serverError "Server not found"
            [("server", serverName), ("operation", "tool_call"), ("tool", toolName)]) ∧
      readResource connReadResource st serverName uri
        = .error (.serverError "Server not found"
            [("server", serverName), ("operation", "resource_read"), ("uri", uri)])) ∧
    (∀ connection, mapGet st serverName = some connection →
      callTool connCallTool st serverName toolName args
        = connCallTool connection toolName args ∧
      readResource connReadResource st serverName uri
        = connReadResource connection uri) := by
  constructor
  · intro h
    exact ⟨by simp [callTool, h], by simp [readResource, h]⟩
  · intro connection h
    exact ⟨by simp [callTool, h], by simp [readResource, h]⟩

theorem callTool_readResource_routing_witness :
    (mapGet ([] : ConnMap) "missing-server" = none) ∧
    callTool (fun _ _ _ => (.ok () : Except JsError Unit)) [] "missing-server" "x" "argv"
      = .error (.serverError "Server not found"
          [("server", "missing-server"), ("operation", "tool_call"), ("tool", "x")]) ∧
    readResource (fun _ _ => (.ok () : Except JsError Unit)) [] "missing-server" "u://r"
      = .error (.serverError "Server not found"
          [("server", "missing-server"), ("operation", "resource_read"), ("uri", "u://r")]) :=
  ⟨rfl,
   (callTool_readResource_routing (fun _ _ _ => (.ok () : Except JsError Unit))
     (fun _ _ => (.ok () : Except JsError Unit)) [] "missing-server" "x" "argv" "u://r").1 rfl⟩

/-- C6: a configuration-specific error is never wrapped further on its way
to the caller: `initialize` surfaces a `ConfigError` unwrapped and wraps any
other failure as `HUB_INIT_ERROR` tagged with whether config-watching was
requested, and `updateConfig` likewise leaves a `ConfigError` unwrapped
while tagging other failures as `CONFIG_UPDATE_ERROR` with whether the
update source was a path. -/
theorem hub_error_wrapping
    (loadRes updateRes : Except JsError (List (String × ServerConfig)))
    (connectRes : String → ServerConfig → Except JsError Unit)
    (st : ConnMap) (shouldWatchConfig isPathUpdate : Bool) :
    (∀ m, loadRes = .error (.configError m) →
      initHub loadRes connectRes st shouldWatchConfig = .error (.configError m)) ∧
    (∀ e, loadRes = .error e → isConfigError e = false →
      initHub loadRes connectRes st shouldWatchConfig
        = .error (.wrapped "HUB_INIT_ERROR"
            [("watchEnabled", toString shouldWatchConfig)] e)) ∧
    (∀ m, updateRes = .error (.configError m) →
      updateConfig updateRes connectRes st isPathUpdate = .error (.configError m)) ∧
    (∀ e, updateRes = .error e → isConfigError e = false →
      updateConfig updateRes connectRes st isPathUpdate
        = .error (.wrapped "CONFIG_UPDATE_ERROR"
            [("isPathUpdate", toString isPathUpdate)] e)) := by
  refine ⟨?_, ?_, ?_, ?_⟩
  · intro m hload
    simp [initHub, initHubBody, hload, isConfigError, Bind.bind, Except.bind]
  · intro e hload hcfg
    simp [initHub, initHubBody, hload, hcfg, wrapError, Bind.bind, Except.bind]
  · intro m hupd
    simp [updateConfig, hupd, wrapError, isConfigError, Bind.bind, Except.bind]
  · intro e hupd hcfg
    simp [updateConfig, hupd, hcfg, wrapError, Bind.bind, Except.bind]

theorem hub_error_wrapping_witness :
    ((.error (.configError "missing file") :
        Except JsError (List (String × ServerConfig))) = .error (.configError "missing file")) ∧
    initHub (.error (.configError "missing file")) (fun _ _ => .ok ()) [] true
      = .error (.configError "missing file") ∧
    updateConfig (.error (.configError "missing file")) (fun _ _ => .ok ()) [] true
      = .error (.configError "missing file") :=
  ⟨rfl,
   (hub_error_wrapping (.error (.configError "missing file"))
     (.error (.configError "missing file")) (fun _ _ => .ok ()) [] true true).1
     "missing file" rfl,
   (hub_error_wrapping (.error (.configError "missing file"))
     (.error (.configError "missing file")) (fun _ _ => .ok ()) [] true true).2.2.1
     "missing file" rfl⟩

/-! ## Lemmas about the locking algorithm -/

theorem withLockGo_all_eexist {α : Type} (create : Nat → CreateOutcome)
    (unlinkRes : Nat → Except JsError Unit) (fn : Except JsError α) :
    ∀ (fuel attempt : Nat),
      (∀ i : Nat, attempt ≤ i → i < attempt + fuel →
        ∃ e, create i = .failure e ∧ e.code = some "EEXIST") →
      withLockGo create unlinkRes fn attempt fuel
        = (.error (.genericError "Failed to acquire lock after 10 attempts"),
           eexistTrace attempt fuel) := by
  intro fuel
  induction fuel with
  | zero =>
    intro attempt _
    rfl
  | succ f ih =>
    intro attempt h
    obtain ⟨e, hce, hcode⟩ := h attempt (le_refl _) (by omega)
    have hrec := ih (attempt + 1) (fun i h1 h2 => h i (by omega) (by omega))
    simp only [withLockGo, hce]
    rw [if_pos hcode, hrec]
    simp [eexistTrace]

theorem withLockGo_other_failure {α : Type} (create : Nat → CreateOutcome)
    (unlinkRes : Nat → Except JsError Unit) (fn : Except JsError α) :
    ∀ (fuel attempt k : Nat) (e : JsError),
      (∀ i : Nat, attempt ≤ i → i < k →
        ∃ e2, create i = .failure e2 ∧ e2.code = some "EEXIST") →
      create k = .failure e → ¬ e.code = some "EEXIST" →
      attempt ≤ k → k < attempt + fuel →
      withLockGo create unlinkRes fn attempt fuel
        = (.error e, eexistTrace attempt (k - attempt) ++ [.createFailedOther k]) := by
  intro fuel
  induction fuel with
  | zero =>
    intro attempt k e _ _ _ _ h5
    omega
  | succ f ih =>
    intro attempt k e h1 h2 h3 h4 h5
    by_cases hk : attempt = k
    · subst hk
      have hz : attempt - attempt = 0 := by omega
      simp only [withLockGo, h2]
      rw [if_neg h3]
      simp [hz, eexistTrace]
    · obtain ⟨e2, hce, hcode⟩ := h1 attempt (le_refl _) (by omega)
      have hrec := ih (attempt + 1) k e (fun i hi1 hi2 => h1 i (by omega) hi2)
        h2 h3 (by omega) (by omega)
      simp only [withLockGo, hce]
      rw [if_pos hcode, hrec]
      have hshape : k - attempt = (k - (attempt + 1)) + 1 := by omega
      rw [hshape]
      simp [eexistTrace]

theorem withLockGo_success {α : Type} (create : Nat → CreateOutcome)
    (unlinkRes : Nat → Except JsError Unit) (fn : Except JsError α)
    (hfn : ∀ e, fn = .error e → ¬ e.code = some "EEXIST") :
    ∀ (fuel attempt k : Nat),
      (∀ i : Nat, attempt ≤ i → i < k →
        ∃ e2, create i = .failure e2 ∧ e2.code = some "EEXIST") →
      create k = .success →
      attempt ≤ k → k < attempt + fuel →
      withLockGo create unlinkRes fn attempt fuel
        = (fn, eexistTrace attempt (k - attempt)
            ++ [.acquired k, .ranCritical k,
                match unlinkRes k with
                | .ok _ => .unlinked k
                | .error _ => .unlinkFailedIgnored k]) := by
  intro fuel
  induction fuel with
  | zero =>
    intro attempt k _ _ _ h5
    omega
  | succ f ih =>
    intro attempt k h1 h2 h3 h4
    by_cases hk : attempt = k
    · subst hk
      have hz : attempt - attempt = 0 := by omega
      rw [hz]
      cases hfc : fn with
      | ok a =>
        simp only [withLockGo, h2, hfc]
        simp [eexistTrace]
      | error e =>
        simp only [withLockGo, h2, hfc]
        rw [if_neg (hfn e hfc)]
        simp [eexistTrace]
    · obtain ⟨e2, hce, hcode⟩ := h1 attempt (le_refl _) (by omega)
      have hrec := ih (attempt + 1) k (fun i hi1 hi2 => h1 i (by omega) hi2)
        h2 (by omega) (by omega)
      simp only [withLockGo, hce]
      rw [if_pos hcode, hrec]
      have hshape : k - attempt = (k - (attempt + 1)) + 1 := by omega
      rw [hshape]
      simp [eexistTrace]

theorem withLock_first_attempt_ok {α : Type} (create : Nat → CreateOutcome)
    (unlinkRes : Nat → Except JsError Unit) (v : α) (hc : create 0 = .success) :
    (withLock create unlinkRes (.ok v)).1 = .ok v := by
  have h := withLockGo_success create unlinkRes (.ok v) (fun e he => by cases he)
    10 0 0 (fun i h1 h2 => absurd h2 (by omega)) hc (le_refl 0) (by omega)
  simp only [withLock, maxRetries]
  rw [h]

/-! ## Claims about the workspace registry -/

/-- C9: in `_withLock`, a creation failure because the lock file already
exists (`EEXIST`) waits the fixed 50-unit delay and retries, up to the
fixed budget of 10 attempts, after which the operation fails with the
lock-acquisition-timeout error; any other creation failure propagates
immediately without retry; and on acquisition success the lock file removal
is attempted after the critical section regardless of whether the critical
section succeeded or failed. -/
theorem withLock_retry_spec {α : Type} (create : Nat → CreateOutcome)
    (unlinkRes : Nat → Except JsError Unit) (fn : Except JsError α)
    (hfn : ∀ e, fn = .error e → ¬ e.code = some "EEXIST") :
    ((∀ i : Nat, i < 10 → ∃ e, create i = .failure e ∧ e.code = some "EEXIST") →
      withLock create unlinkRes fn
        = (.error (.genericError "Failed to acquire lock after 10 attempts"),
           eexistTrace 0 10)) ∧
    (∀ (k : Nat) (e : JsError),
      (∀ i : Nat, i < k → ∃ e2, create i = .failure e2 ∧ e2.code = some "EEXIST") →
      create k = .failure e → ¬ e.code = some "EEXIST" → k < 10 →
      withLock create unlinkRes fn
        = (.error e, eexistTrace 0 k ++ [.createFailedOther k])) ∧
    (∀ k : Nat,
      (∀ i : Nat, i < k → ∃ e2, create i = .failure e2 ∧ e2.code = some "EEXIST") →
      create k = .success → k < 10 →
      withLock create unlinkRes fn
        = (fn, eexistTrace 0 k
            ++ [.acquired k, .ranCritical k,
                match unlinkRes k with
                | .ok _ => .unlinked k
                | .error _ => .unlinkFailedIgnored k])) := by
  refine ⟨?_, ?_, ?_⟩
  · intro h
    simp only [withLock, maxRetries]
    exact withLockGo_all_eexist create unlinkRes fn 10 0
      (fun i h1 h2 => h i (by omega))
  · intro k e h1 h2 h3 hk
    simp only [withLock, maxRetries]
    have := withLockGo_other_failure create unlinkRes fn 10 0 k e
      (fun i hi1 hi2 => h1 i hi2) h2 h3 (Nat.zero_le k) (by omega)
    simpa using this
  · intro k h1 h2 hk
    simp only [withLock, maxRetries]
    have := withLockGo_success create unlinkRes fn hfn 10 0 k
      (fun i hi1 hi2 => h1 i hi2) h2 (Nat.zero_le k) (by omega)
    simpa using this

theorem withLock_retry_spec_witness :
    ((∀ i : Nat, i < 10 →
        ∃ e, (fun _ : Nat => CreateOutcome.failure (.ioError "EEXIST")) i = .failure e ∧
          e.code = some "EEXIST") ∧
      withLock (fun _ => .failure (.ioError "EEXIST"))
          (fun _ => .error (.ioError "EBUSY"))
          (.error (.genericError "body failed") : Except JsError Unit)
        = (.error (.genericError "Failed to acquire lock after 10 attempts"),
           eexistTrace 0 10)) ∧
    withLock (fun i => if i < 2 then .failure (.ioError "EEXIST")
          else .failure (.ioError "EACCES"))
        (fun _ => .error (.ioError "EBUSY"))
        (.error (.genericError "body failed") : Except JsError Unit)
      = (.error (.ioError "EACCES"), eexistTrace 0 2 ++ [.createFailedOther 2]) ∧
    withLock (fun i => if i < 3 then .failure (.ioError "EEXIST") else .success)
        (fun _ => .error (.ioError "EBUSY"))
        (.error (.genericError "body failed") : Except JsError Unit)
      = (.error (.genericError "body failed"),
         eexistTrace 0 3 ++ [.acquired 3, .ranCritical 3, .unlinkFailedIgnored 3]) := by
  have hfn : ∀ e, (.error (.genericError "body failed") : Except JsError Unit) = .error e →
      ¬ e.code = some "EEXIST" := by
    intro e he
    injection he with h
    subst h
    decide
  refine ⟨⟨?_, ?_⟩, ?_, ?_⟩
  · intro i _
    exact ⟨.ioError "EEXIST", rfl, rfl⟩
  · exact (withLock_retry_spec (fun _ => .failure (.ioError "EEXIST"))
      (fun _ => .error (.ioError "EBUSY")) _ hfn).1
      (fun i _ => ⟨.ioError "EEXIST", rfl, rfl⟩)
  · exact (withLock_retry_spec (fun i => if i < 2 then .failure (.ioError "EEXIST")
        else .failure (.ioError "EACCES"))
      (fun _ => .error (.ioError "EBUSY")) _ hfn).2.1 2 (.ioError "EACCES")
      (fun i hi => ⟨.ioError "EEXIST", by simp [hi], rfl⟩)
      (by norm_num) (by decide) (by omega)
  · exact (withLock_retry_spec (fun i => if i < 3 then .failure (.ioError "EEXIST")
        else .success)
      (fun _ => .error (.ioError "EBUSY")) _ hfn).2.2 3
      (fun i hi => ⟨.ioError "EEXIST", by simp [hi], rfl⟩)
      (by norm_num) (by omega)

/-- C7: `cleanupStaleEntries` never raises outward (the outer catch absorbs
lock, read and write failures alike), and on the success path it keeps
exactly the rows whose recorded pid denotes a live process — in their
original order and unchanged — rewriting the document only when at least
one row was dropped. -/
theorem cleanupStaleEntries_exact (create : Nat → CreateOutcome)
    (unlinkRes : Nat → Except JsError Unit) (killRes : Nat → Except JsError Unit)
    (readRes : Except JsError WorkspaceDoc)
    (writeRes : WorkspaceDoc → Except JsError Unit) :
    (∃ v, cleanupStaleEntries create unlinkRes killRes readRes writeRes = .ok v) ∧
    (∀ cache : WorkspaceDoc, create 0 = .success → readRes = .ok cache →
      (∀ d, writeRes d = .ok ()) →
      cleanupStaleEntries create unlinkRes killRes readRes writeRes
        = .ok (if cache.length
                  - (cache.filter (fun row => isProcessRunning killRes row.2.pid)).length > 0
               then some (cache.filter (fun row => isProcessRunning killRes row.2.pid))
               else none) ∧
      (∀ row, row ∈ cache.filter (fun row => isProcessRunning killRes row.2.pid)
        ↔ row ∈ cache ∧ isProcessRunning killRes row.2.pid = true)) := by
  constructor
  · cases h : (withLock create unlinkRes (cleanupBody killRes readRes writeRes)).1 with
    | ok v => exact ⟨v, by simp [cleanupStaleEntries, h]⟩
    | error e => exact ⟨none, by simp [cleanupStaleEntries, h]⟩
  · intro cache hc hr hw
    have hbody : cleanupBody killRes readRes writeRes
        = .ok (if cache.length
                  - (cache.filter (fun row => isProcessRunning killRes row.2.pid)).length > 0
               then some (cache.filter (fun row => isProcessRunning killRes row.2.pid))
               else none) := by
      by_cases hrm : cache.length
          - (cache.filter (fun row => isProcessRunning killRes row.2.pid)).length > 0
      · simp [cleanupBody, hr, hw, hrm, Bind.bind, Except.bind, Pure.pure, Except.pure]
      · simp [cleanupBody, hr, hrm, Bind.bind, Except.bind, Pure.pure, Except.pure]
    refine ⟨?_, fun row => List.mem_filter⟩
    unfold cleanupStaleEntries
    rw [hbody, withLock_first_attempt_ok create unlinkRes _ hc]

theorem cleanupStaleEntries_exact_witness :
    ((fun _ : Nat => CreateOutcome.success) 0 = CreateOutcome.success ∧
      (.ok [("w1", WorkspaceEntry.mk 1 4000 "t1"), ("w2", WorkspaceEntry.mk 2 4001 "t2")] :
          Except JsError WorkspaceDoc)
        = .ok [("w1", WorkspaceEntry.mk 1 4000 "t1"), ("w2", WorkspaceEntry.mk 2 4001 "t2")]) ∧
    cleanupStaleEntries (fun _ => .success) (fun _ => .ok ())
        (fun pid => if pid = 1 then .ok () else .error (.ioError "ESRCH"))
        (.ok [("w1", WorkspaceEntry.mk 1 4000 "t1"), ("w2", WorkspaceEntry.mk 2 4001 "t2")])
        (fun _ => .ok ())
      = .ok (some [("w1", WorkspaceEntry.mk 1 4000 "t1")]) :=
  ⟨⟨rfl, rfl⟩,
   ((cleanupStaleEntries_exact (fun _ => .success) (fun _ => .ok ())
     (fun pid => if pid = 1 then .ok () else .error (.ioError "ESRCH"))
     (.ok [("w1", WorkspaceEntry.mk 1 4000 "t1"), ("w2", WorkspaceEntry.mk 2 4001 "t2")])
     (fun _ => .ok ())).2
     [("w1", WorkspaceEntry.mk 1 4000 "t1"), ("w2", WorkspaceEntry.mk 2 4001 "t2")]
     rfl rfl (fun _ => rfl)).1⟩

/-- C8: `register(port)` upserts `(pid, port, startTime)` under the caller
workspace identity leaving every other row unchanged; a subsequent
`getActiveWorkspaces` read of the written document returns that entry with
matching pid, port and startTime; and `deregister` afterward removes
exactly that identity row. -/
theorem register_roundtrip (create : Nat → CreateOutcome)
    (unlinkRes : Nat → Except JsError Unit)
    (writeRes : WorkspaceDoc → Except JsError Unit) (doc0 : WorkspaceDoc)
    (workspaceKey : String) (pid port : Nat) (startTime : String)
    (hc : create 0 = .success) (hw : ∀ d, writeRes d = .ok ()) :
    register create unlinkRes (.ok doc0) writeRes workspaceKey pid port startTime
      = .ok (mapSet doc0 workspaceKey (WorkspaceEntry.mk pid port startTime)) ∧
    mapGet (getActiveWorkspaces
        (.ok (mapSet doc0 workspaceKey (WorkspaceEntry.mk pid port startTime))))
        workspaceKey
      = some (WorkspaceEntry.mk pid port startTime) ∧
    (∀ k, k ≠ workspaceKey →
      mapGet (mapSet doc0 workspaceKey (WorkspaceEntry.mk pid port startTime)) k
        = mapGet doc0 k) ∧
    deregister create unlinkRes
        (.ok (mapSet doc0 workspaceKey (WorkspaceEntry.mk pid port startTime)))
        writeRes workspaceKey
      = .ok (some (mapDel (mapSet doc0 workspaceKey (WorkspaceEntry.mk pid port startTime))
          workspaceKey)) ∧
    mapGet (mapDel (mapSet doc0 workspaceKey (WorkspaceEntry.mk pid port startTime))
        workspaceKey) workspaceKey = none ∧
    (∀ k, k ≠ workspaceKey →
      mapGet (mapDel (mapSet doc0 workspaceKey (WorkspaceEntry.mk pid port startTime))
          workspaceKey) k = mapGet doc0 k) := by
  have hbody : registerBody (.ok doc0) writeRes workspaceKey
      (WorkspaceEntry.mk pid port startTime)
      = .ok (mapSet doc0 workspaceKey (WorkspaceEntry.mk pid port startTime)) := by
    simp [registerBody, hw, Bind.bind, Except.bind, Pure.pure, Except.pure]
  have hdbody : deregisterBody
      (.ok (mapSet doc0 workspaceKey (WorkspaceEntry.mk pid port startTime)))
      writeRes workspaceKey
      = .ok (mapDel (mapSet doc0 workspaceKey (WorkspaceEntry.mk pid port startTime))
          workspaceKey) := by
    simp [deregisterBody, mapGet_mapSet_self, hw, Bind.bind, Except.bind, Pure.pure, Except.pure]
  refine ⟨?_, ?_, ?_, ?_, ?_, ?_⟩
  · unfold register
    rw [hbody, withLock_first_attempt_ok create unlinkRes _ hc]
  · exact mapGet_mapSet_self doc0 workspaceKey (WorkspaceEntry.mk pid port startTime)
  · intro k hk
    exact mapGet_mapSet_ne doc0 workspaceKey k (WorkspaceEntry.mk pid port startTime) hk
  · unfold deregister
    rw [hdbody, withLock_first_attempt_ok create unlinkRes _ hc]
  · exact mapGet_mapDel_self _ workspaceKey
  · intro k hk
    rw [mapGet_mapDel_ne _ workspaceKey k hk]
    exact mapGet_mapSet_ne doc0 workspaceKey k (WorkspaceEntry.mk pid port startTime) hk

theorem register_roundtrip_witness :
    ((fun _ : Nat => CreateOutcome.success) 0 = CreateOutcome.success ∧
      "otherWs" ≠ "homeProj") ∧
    register (fun _ => .success) (fun _ => .ok ())
        (.ok [("otherWs", WorkspaceEntry.mk 7 5000 "t0")]) (fun _ => .ok ())
        "homeProj" 42 37373 "2025-01-01T00:00:00Z"
      = .ok [("otherWs", WorkspaceEntry.mk 7 5000 "t0"),
             ("homeProj", WorkspaceEntry.mk 42 37373 "2025-01-01T00:00:00Z")] ∧
    mapGet (mapSet [("otherWs", WorkspaceEntry.mk 7 5000 "t0")] "homeProj"
        (WorkspaceEntry.mk 42 37373 "2025-01-01T00:00:00Z")) "otherWs"
      = mapGet [("otherWs", WorkspaceEntry.mk 7 5000 "t0")] "otherWs" :=
  ⟨⟨rfl, by decide⟩,
   (register_roundtrip (fun _ => .success) (fun _ => .ok ()) (fun _ => .ok ())
     [("otherWs", WorkspaceEntry.mk 7 5000 "t0")] "homeProj" 42 37373
     "2025-01-01T00:00:00Z" rfl (fun _ => rfl)).1,
   (register_roundtrip (fun _ => .success) (fun _ => .ok ()) (fun _ => .ok ())
     [("otherWs", WorkspaceEntry.mk 7 5000 "t0")] "homeProj" 42 37373
     "2025-01-01T00:00:00Z" rfl (fun _ => rfl)).2.2.1 "otherWs" (by decide)⟩

/-- C10: `stopServer(name, disable := true)` persists the disabled flag
before checking that a connection exists, so with a configured entry but no
held connection the call fails with the connection-not-found `ServerError`
while the configuration has already been mutated and persisted — whereas
`startServer` performs both NotFound checks before mutating and leaves the
configuration untouched on the same failure. -/
theorem stopServer_persists_disable_before_connection_check {Status : Type}
    (persistRes : List (String × ServerConfig) → Except JsError Unit)
    (stopRes : Bool → Except JsError Status) (startRes : Except JsError Status)
    (config : List (String × ServerConfig)) (st : ConnMap) (name : String)
    (serverConfig : ServerConfig)
    (hcfg : mapGet config name = some serverConfig)
    (hconn : mapGet st name = none)
    (hp : ∀ c, persistRes c = .ok ()) :
    stopServer persistRes stopRes config st name true
      = ((mapSet config name { serverConfig with disabled := true }, true),
         .error (.serverError "Server connection not found" [("server", name)])) ∧
    mapGet (mapSet config name { serverConfig with disabled := true }) name
      = some { serverConfig with disabled := true } ∧
    startServer persistRes startRes config st name
      = ((config, false),
         .error (.serverError "Server connection not found" [("server", name)])) := by
  refine ⟨?_, mapGet_mapSet_self _ _ _, ?_⟩
  · simp [stopServer, hcfg, hconn, hp]
  · simp [startServer, hcfg, hconn]

theorem stopServer_persists_disable_before_connection_check_witness :
    (mapGet [("srv", ServerConfig.mk false "p")] "srv" = some (ServerConfig.mk false "p") ∧
      mapGet ([] : ConnMap) "srv" = none) ∧
    stopServer (fun _ => .ok ()) (fun _ => (.ok "stopped" : Except JsError String))
        [("srv", ServerConfig.mk false "p")] [] "srv" true
      = (([("srv", ServerConfig.mk true "p")], true),
         .error (.serverError "Server connection not found" [("server", "srv")])) ∧
    startServer (fun _ => .ok ()) (.ok "started")
        [("srv", ServerConfig.mk false "p")] [] "srv"
      = (([("srv", ServerConfig.mk false "p")], false),
         .error (.serverError "Server connection not found" [("server", "srv")])) :=
  ⟨⟨rfl, rfl⟩,
   (stopServer_persists_disable_before_connection_check (fun _ => .ok ())
     (fun _ => (.ok "stopped" : Except JsError String)) (.ok "started")
     [("srv", ServerConfig.mk false "p")] [] "srv" (ServerConfig.mk false "p")
     rfl rfl (fun _ => rfl)).1,
   (stopServer_persists_disable_before_connection_check (fun _ => .ok ())
     (fun _ => (.ok "stopped" : Except JsError String)) (.ok "started")
     [("srv", ServerConfig.mk false "p")] [] "srv" (ServerConfig.mk false "p")
     rfl rfl (fun _ => rfl)).2.2⟩
